import Mathlib

/-!
Verification of the object-storage engine of Ess-Three
(`src/internal/storage/storage.go`).

The Go code stores every piece of state in the filesystem under `baseDir`:

* object content at   `baseDir/bucket/objects/key`
* object metadata at  `baseDir/bucket/metadata/key + ".json"`
* multipart data at   `baseDir/bucket/multipart/uploadID/…`
  (`multipartPath`, lines 437-439, joins only `baseDir`, `bucket`,
  `"multipart"`, `uploadID`; its `key` parameter is unused)

We embed that filesystem as a record of finite maps.  Maps that are only
ever read point-wise are Lean functions into `Option`; the object-metadata
area, which `listAllObjects` enumerates by walking the directory, is an
association list.  Byte contents are `List Nat`; `time.Now` and
`generateRandomID`, which are non-content inputs of the operations, are
passed in as explicit parameters (`now`, `rid`).  A caller-supplied data
stream is either a full payload or a payload prefix followed by a read
error, which is how an `io.Reader` can fail `io.Copy` midway.
-/

namespace EssThree

/-- Record `ObjectMetadata` (storage.go lines 18-26); `LastModified` is modelled
as the `now` parameter handed to the writing operation. -/
structure ObjectMetadata where
  key : String
  size : Int
  lastModified : Nat
  etag : String
  contentType : String
  metadata : List (String × String)
deriving Repr, DecidableEq

/-- Record `MultipartUpload` (storage.go lines 28-36). -/
structure MultipartUpload where
  uploadID : String
  bucket : String
  key : String
  created : Nat
  contentType : String
  metadata : List (String × String)
deriving Repr, DecidableEq

/-- Record `Part` (storage.go lines 38-43). -/
structure Part where
  partNumber : Int
  etag : String
  size : Int
deriving Repr, DecidableEq

/-- Record `ListResult` (storage.go lines 45-51). -/
structure ListResult where
  objects : List ObjectMetadata
  isTruncated : Bool
  nextMarker : String
  nextContinuationToken : String
deriving Repr, DecidableEq

/-- A caller-supplied byte stream: either the whole payload, or the bytes
that `io.Copy` manages to transfer before the reader returns an error. -/
inductive ByteStream where
  | ok (bytes : List Nat)
  | err (written : List Nat)
deriving Repr, DecidableEq

/-- The distinct failure exits of the embedded operations, one per
`fmt.Errorf` site the claims touch. -/
inductive StorageError where
  | objectNotFound
  | metadataUnreadable
  | invalidRange
  | uploadNotFound
  | partOpenFailed (partNumber : Int)
deriving Repr, DecidableEq

deriving instance DecidableEq for Except

/-- The filesystem state owned by `FileSystemStorage` (storage.go line 72).
`objects` is indexed by (bucket, key); `uploads` and the part areas by
(bucket, uploadID) because `multipartPath` ignores its key argument. -/
structure FileSystemStorage where
  objects : String → String → Option (List Nat)
  metas : List ((String × String) × ObjectMetadata)
  uploads : String → String → Option MultipartUpload
  partData : String → String → Int → Option (List Nat)
  partMeta : List ((String × String × Int) × Part)

/-- The empty data directory, as produced by `NewFileSystemStorage`. -/
def emptyFS : FileSystemStorage :=
  ⟨fun _ _ => none, [], fun _ _ => none, fun _ _ _ => none, []⟩

/-- Go compares keys with `<` / `>` on `string`, the bytewise
lexicographic order; Lean's `String` order is the same order.  The stock
`String.decidableLT` is compiled by well-founded recursion and does not
reduce inside the kernel, so concrete states could not be evaluated with
`decide`; this instance decides the very same proposition through the
underlying character lists, which do reduce. -/
instance (priority := 2000) strDecLT : DecidableRel (fun a b : String => a < b) :=
  fun a b => decidable_of_iff (a.data < b.data) (String.lt_iff_toList_lt).symm

/-- Companion to `strDecLT` for `≤` (used by the sort on keys). -/
instance (priority := 2000) strDecLE : DecidableRel (fun a b : String => a ≤ b) :=
  fun a b =>
    decidable_of_iff (¬ b.data < a.data)
      ((not_congr (String.lt_iff_toList_lt).symm).trans not_lt)

instance decKeyLe : DecidableRel (fun a b : ObjectMetadata => a.key ≤ b.key) :=
  fun a b => strDecLE a.key b.key

instance : IsTotal ObjectMetadata (fun a b => a.key ≤ b.key) :=
  ⟨fun a b => le_total a.key b.key⟩

instance : IsTrans ObjectMetadata (fun a b => a.key ≤ b.key) :=
  ⟨fun _ _ _ h1 h2 => le_trans h1 h2⟩

instance : IsTotal Part (fun a b => a.partNumber ≤ b.partNumber) :=
  ⟨fun a b => le_total a.partNumber b.partNumber⟩

instance : IsTrans Part (fun a b => a.partNumber ≤ b.partNumber) :=
  ⟨fun _ _ _ h1 h2 => le_trans h1 h2⟩

/-- Overwrite the object file at `baseDir/bucket/objects/key`. -/
def updObj (f : String → String → Option (List Nat)) (bucket key : String)
    (v : List Nat) : String → String → Option (List Nat) :=
  fun b k => if b = bucket ∧ k = key then some v else f b k

/-- Overwrite the metadata file at `baseDir/bucket/metadata/key.json`.
(The real filesystem keeps the rewritten file at its old directory slot;
only the set of records matters to the engine, because `listAllObjects`
re-sorts, so we may put the fresh record in front.) -/
def metaUpsert (l : List ((String × String) × ObjectMetadata)) (bucket key : String)
    (m : ObjectMetadata) : List ((String × String) × ObjectMetadata) :=
  ((bucket, key), m) :: l.filter (fun e => e.1 ≠ (bucket, key))

/-- Read the metadata file for (bucket, key), if present. -/
def metaLookup (l : List ((String × String) × ObjectMetadata)) (bucket key : String) :
    Option ObjectMetadata :=
  (l.find? (fun e => e.1 = (bucket, key))).map (·.2)

/-- The ETag that `PutObject` computes on line 125:
`fmt.Sprintf("\"%d-%d\"", size, time.Now().Unix())`. -/
def putETag (size : Int) (now : Nat) : String :=
  "\"" ++ toString size ++ "-" ++ toString now ++ "\""

/-- Operation `PutObject` (storage.go lines 100-149).  `os.Create` truncates any
existing object file in place; `io.Copy` then streams the payload into it.
If the stream errors midway the function returns before the metadata is
written, leaving the partially copied bytes in the (already truncated)
object file. -/
def putObject (fs : FileSystemStorage) (bucket key : String) (data : ByteStream)
    (metadata : List (String × String)) (contentType : String) (now : Nat) :
    FileSystemStorage × Option ObjectMetadata :=
  match data with
  | .err written =>
      ({ fs with objects := updObj fs.objects bucket key written }, none)
  | .ok bytes =>
      let size : Int := bytes.length
      let meta : ObjectMetadata :=
        ⟨key, size, now, putETag size now, contentType, metadata⟩
      ({ fs with
          objects := updObj fs.objects bucket key bytes,
          metas := metaUpsert fs.metas bucket key meta }, some meta)

/-- Operation `GetObject` (storage.go lines 152-180): stat the object file, read the
metadata file, open the object file. -/
def getObject (fs : FileSystemStorage) (bucket key : String) :
    Except StorageError (List Nat × ObjectMetadata) :=
  match fs.objects bucket key with
  | none => .error .objectNotFound
  | some bytes =>
      match metaLookup fs.metas bucket key with
      | none => .error .metadataUnreadable
      | some m => .ok (bytes, m)

/-- The end-bound clamp of `GetObjectRange` (storage.go lines 252-254). -/
def clampEnd (fileSize rangeEnd : Int) : Int :=
  if rangeEnd < 0 ∨ fileSize ≤ rangeEnd then fileSize - 1 else rangeEnd

/-- The start-bound clamp of `GetObjectRange` (storage.go lines 255-257). -/
def clampStart (rangeStart : Int) : Int :=
  if rangeStart < 0 then 0 else rangeStart

/-- Operation `GetObjectRange` (storage.go lines 239-292): stat, clamp the bounds,
reject an inverted range, read metadata, then serve
`io.LimitReader(file seeked to start, end-start+1)`. -/
def getObjectRange (fs : FileSystemStorage) (bucket key : String)
    (rangeStart rangeEnd : Int) :
    Except StorageError (List Nat × ObjectMetadata × Int × Int) :=
  match fs.objects bucket key with
  | none => .error .objectNotFound
  | some bytes =>
      let fileSize : Int := bytes.length
      let e := clampEnd fileSize rangeEnd
      let s := clampStart rangeStart
      if e < s then .error .invalidRange
      else
        match metaLookup fs.metas bucket key with
        | none => .error .metadataUnreadable
        | some m => .ok ((bytes.drop s.toNat).take (e - s + 1).toNat, m, s, e)

/-- The key sort `sort.Slice(objects, …Key < …Key)` of `listAllObjects` (lines 343-345),
modelled as insertion sort on `≤` of keys (a real metadata directory holds
one record per key, so the order among equal keys is immaterial). -/
def sortByKey (l : List ObjectMetadata) : List ObjectMetadata :=
  l.insertionSort (fun a b => a.key ≤ b.key)

/-- Helper `listAllObjects` (storage.go lines 300-348): walk the bucket's metadata
directory, decode every record, keep those whose `Key` field matches the
requested prefix (an empty prefix matches everything), and sort by key. -/
def listAllObjects (fs : FileSystemStorage) (bucket pfx : String) :
    List ObjectMetadata :=
  let walked := (fs.metas.filter (fun e => e.1.1 = bucket)).map (·.2)
  sortByKey (walked.filter (fun m => pfx = "" || pfx.data.isPrefixOf m.key.data))

/-- The resume scan shared by `ListObjects` (lines 362-370) and
`ListObjectsV2` (lines 405-413): the index of the first record whose key is
strictly greater than the cursor, or `none` when no key is greater.  (Go
writes this as a `for … break` loop over the indexed slice.) -/
def firstGreaterIdx (cursor : String) : List ObjectMetadata → Option Nat
  | [] => none
  | o :: rest =>
      if cursor < o.key then some 0
      else (firstGreaterIdx cursor rest).map (· + 1)

/-- Value `startIdx` as both listing functions compute it: `0` for an empty
cursor, and — because the Go loop leaves `startIdx` untouched when no key
is greater — also `0` when the scan finds nothing. -/
def resumeIdx (l : List ObjectMetadata) (cursor : String) : Nat :=
  if cursor = "" then 0
  else match firstGreaterIdx cursor l with
       | some i => i
       | none => 0

/-- The page-slicing body shared verbatim by `ListObjects`
(lines 351-391) and `ListObjectsV2` (lines 394-434); the two Go functions
differ only in which cursor field of `ListResult` they fill in.  Returns
(page, isTruncated, next cursor). -/
def paginateList (l : List ObjectMetadata) (cursor : String) (maxKeys0 : Int) :
    List ObjectMetadata × Bool × String :=
  let maxKeys := if maxKeys0 ≤ 0 then 1000 else maxKeys0
  let startIdx := resumeIdx l cursor
  let len : Int := l.length
  let endIdx0 : Int := (startIdx : Int) + maxKeys
  let isTrunc : Bool := decide (endIdx0 < len)
  let endIdx : Int := if len < endIdx0 then len else endIdx0
  let page := (l.drop startIdx).take (endIdx - startIdx).toNat
  let next :=
    if isTrunc ∧ page ≠ [] then ((page.getLast?).map (·.key)).getD "" else ""
  (page, isTrunc, next)

/-- Operation `ListObjects` (storage.go lines 350-391): V1 marker pagination. -/
def listObjects (fs : FileSystemStorage) (bucket pfx marker : String)
    (maxKeys : Int) : ListResult :=
  let r := paginateList (listAllObjects fs bucket pfx) marker maxKeys
  ⟨r.1, r.2.1, r.2.2, ""⟩

/-- Operation `ListObjectsV2` (storage.go lines 393-434): continuation-token
pagination, same algorithm. -/
def listObjectsV2 (fs : FileSystemStorage) (bucket pfx token : String)
    (maxKeys : Int) : ListResult :=
  let r := paginateList (listAllObjects fs bucket pfx) token maxKeys
  ⟨r.1, r.2.1, "", r.2.2⟩

/-- Stand-in for the hex MD5 digest that `UploadPart` computes over the
part's bytes with `crypto/md5` (storage.go lines 493-502).  The claims
proved here use only that the digest is a deterministic function of the
bytes, which this definition shares with the real digest. -/
def md5Hex (bytes : List Nat) : String :=
  "md5-" ++ toString bytes

/-- Operation `CreateMultipartUpload` (storage.go lines 441-474).  The upload id —
in Go `time.Now().UnixNano()` plus `generateRandomID()` — is passed in as
`uploadID`; `now` stands for `time.Now`.  The session is filed under
`multipartPath`, which ignores the key, so the map is keyed by
(bucket, uploadID). -/
def createMultipartUpload (fs : FileSystemStorage) (bucket key contentType : String)
    (metadata : List (String × String)) (uploadID : String) (now : Nat) :
    FileSystemStorage × MultipartUpload :=
  let upload : MultipartUpload := ⟨uploadID, bucket, key, now, contentType, metadata⟩
  ({ fs with
      uploads := fun b u =>
        if b = bucket ∧ u = uploadID then some upload else fs.uploads b u },
   upload)

/-- Operation `UploadPart` (storage.go lines 476-523): check `upload.json` exists
under `multipartPath` (which ignores `key`), write the part bytes, hash
them, and write the part's metadata record. -/
def uploadPart (fs : FileSystemStorage) (bucket key uploadID : String)
    (partNumber : Int) (data : List Nat) :
    FileSystemStorage × Except StorageError Part :=
  match fs.uploads bucket uploadID with
  | none => (fs, .error .uploadNotFound)
  | some _ =>
      let part : Part := ⟨partNumber, md5Hex data, data.length⟩
      ({ fs with
          partData := fun b u n =>
            if b = bucket ∧ u = uploadID ∧ n = partNumber then some data
            else fs.partData b u n,
          partMeta := ((bucket, uploadID, partNumber), part) ::
            fs.partMeta.filter (fun e => e.1 ≠ (bucket, uploadID, partNumber)) },
       .ok part)

/-- The part sort `sort.Slice(parts, …PartNumber < …PartNumber)` of
`CompleteMultipartUpload` (lines 551-554), modelled as insertion sort. -/
def sortParts (parts : List Part) : List Part :=
  parts.insertionSort (fun a b => a.partNumber ≤ b.partNumber)

/-- The concatenation loop of `CompleteMultipartUpload` (lines 556-571):
open each referenced part in order and copy it into the already-created
final object file.  Returns the bytes copied, the running size, and the
number of the first part whose file was missing (the loop returns early
there, leaving the bytes copied so far in the file). -/
def concatParts (pd : String → String → Int → Option (List Nat))
    (bucket uploadID : String) : List Part → List Nat × Int × Option Int
  | [] => ([], 0, none)
  | p :: rest =>
      match pd bucket uploadID p.partNumber with
      | none => ([], 0, some p.partNumber)
      | some bytes =>
          let r := concatParts pd bucket uploadID rest
          (bytes ++ r.1, bytes.length + r.2.1, r.2.2)

/-- Operation `CompleteMultipartUpload` (storage.go lines 525-606): load the session
record, create (truncating) the final object file at the bucket/key passed
to this call, sort the caller's part list by part number, concatenate the
stored part files in that order, then write fresh object metadata carrying
the session's content type and custom metadata, and remove the multipart
working area.  The caller-supplied `ETag` fields of `parts` are never
read.  `rid` stands for `generateRandomID()` on line 574, `now` for
`time.Now`. -/
def completeMultipartUpload (fs : FileSystemStorage) (bucket key uploadID : String)
    (parts : List Part) (rid : String) (now : Nat) :
    FileSystemStorage × Except StorageError ObjectMetadata :=
  match fs.uploads bucket uploadID with
  | none => (fs, .error .uploadNotFound)
  | some upload =>
      let c := concatParts fs.partData bucket uploadID (sortParts parts)
      let fsW := { fs with objects := updObj fs.objects bucket key c.1 }
      match c.2.2 with
      | some pn => (fsW, .error (.partOpenFailed pn))
      | none =>
          let etag := "\"" ++ rid ++ "-" ++ toString parts.length ++ "\""
          let objMeta : ObjectMetadata :=
            ⟨key, c.2.1, now, etag, upload.contentType, upload.metadata⟩
          ({ fsW with
              metas := metaUpsert fsW.metas bucket key objMeta,
              uploads := fun b u =>
                if b = bucket ∧ u = uploadID then none else fsW.uploads b u,
              partData := fun b u n =>
                if b = bucket ∧ u = uploadID then none else fsW.partData b u n,
              partMeta := fsW.partMeta.filter
                (fun e => ¬ (e.1.1 = bucket ∧ e.1.2.1 = uploadID)) },
           .ok objMeta)

/-- Operation `AbortMultipartUpload` (storage.go lines 608-612): `os.RemoveAll` on
`multipartPath` (which ignores `key`); always succeeds. -/
def abortMultipartUpload (fs : FileSystemStorage) (bucket key uploadID : String) :
    FileSystemStorage :=
  { fs with
      uploads := fun b u =>
        if b = bucket ∧ u = uploadID then none else fs.uploads b u,
      partData := fun b u n =>
        if b = bucket ∧ u = uploadID then none else fs.partData b u n,
      partMeta := fs.partMeta.filter
        (fun e => ¬ (e.1.1 = bucket ∧ e.1.2.1 = uploadID)) }

/-- Operation `ListParts` (storage.go lines 614-654): check the session exists under
`multipartPath` (key ignored), decode every part metadata record in the
working area, and sort by part number. -/
def listParts (fs : FileSystemStorage) (bucket key uploadID : String) :
    Except StorageError (List Part) :=
  match fs.uploads bucket uploadID with
  | none => .error .uploadNotFound
  | some _ =>
      .ok (sortParts ((fs.partMeta.filter
        (fun e => e.1.1 = bucket ∧ e.1.2.1 = uploadID)).map (·.2)))

/-- Drive the V1 pagination feedback loop of claim C8: call `ListObjects`,
and while the result is truncated feed the returned `NextMarker` back as
the next call's marker, concatenating the pages.  `fuel` bounds the
iteration so the definition is total. -/
def listObjectsPages (fs : FileSystemStorage) (bucket pfx : String)
    (maxKeys : Int) : String → Nat → List ObjectMetadata
  | _, 0 => []
  | marker, fuel + 1 =>
      let r := listObjects fs bucket pfx marker maxKeys
      if r.isTruncated then
        r.objects ++ listObjectsPages fs bucket pfx maxKeys r.nextMarker fuel
      else r.objects

/-- Five-byte payloads for the concrete multipart scenario of §8 of the
spec: parts uploaded in the order 3, 1, 2, each a distinct payload. -/
def pay1 : List Nat := [1, 1, 1, 1, 1]

def pay2 : List Nat := [2, 2, 2, 2, 2]

def pay3 : List Nat := [3, 3, 3, 3, 3]

/-- Store holding the session `"u"` with parts 3, 1, 2 uploaded in that
order. -/
def fsMulti : FileSystemStorage :=
  (uploadPart (uploadPart (uploadPart
      (createMultipartUpload emptyFS "b" "k" "ct" [] "u" 0).1
      "b" "k" "u" 3 pay3).1 "b" "k" "u" 1 pay1).1 "b" "k" "u" 2 pay2).1

/-- The caller's completion list for `fsMulti`, deliberately in the
submission order 3, 1, 2. -/
def partsC7 : List Part := [⟨3, md5Hex pay3, 5⟩, ⟨1, md5Hex pay1, 5⟩, ⟨2, md5Hex pay2, 5⟩]

/-- The stored bytes of each referenced part of `fsMulti`. -/
def bsC7 : Part → List Nat := fun p =>
  if p.partNumber = 1 then pay1 else if p.partNumber = 2 then pay2 else pay3

/-- Store holding three completed objects `k1`, `k2`, `k3` in bucket
`"b"`, for exercising the listing claims. -/
def fsList : FileSystemStorage :=
  (putObject (putObject (putObject emptyFS "b" "k1" (.ok [1]) [] "ct" 1).1
    "b" "k2" (.ok [2, 2]) [] "ct" 2).1 "b" "k3" (.ok [3]) [] "ct" 3).1

lemma metaLookup_upsert_self (l : List ((String × String) × ObjectMetadata))
    (bucket key : String) (m : ObjectMetadata) :
    metaLookup (metaUpsert l bucket key m) bucket key = some m := by
  simp [metaLookup, metaUpsert]

/-- C9: `PutObject(b, k, P, M, C)` followed by `GetObject(b, k)` returns
exactly the bytes `P` and a metadata record with content type `C`, custom
metadata `M`, and size `|P|`. -/
theorem putObject_getObject_roundtrip
    (fs : FileSystemStorage) (bucket key : String) (payload : List Nat)
    (md : List (String × String)) (ct : String) (now : Nat) :
    ∃ m : ObjectMetadata,
      (putObject fs bucket key (.ok payload) md ct now).2 = some m ∧
      getObject (putObject fs bucket key (.ok payload) md ct now).1 bucket key =
        .ok (payload, m) ∧
      m.contentType = ct ∧ m.metadata = md ∧
      m.size = payload.length ∧ m.key = key := by
  refine ⟨_, rfl, ?_, rfl, rfl, rfl, rfl⟩
  simp [putObject, getObject, updObj, metaLookup_upsert_self]

/-- C2 (code bug): the ETag `PutObject` records is
`fmt.Sprintf("\"%d-%d\"", size, time.Now().Unix())` — size and clock, not
content.  Storing the same bytes at two clock readings yields two
different tags, and storing different bytes of equal length at the same
clock reading yields the same tag, so the tag is neither a pure function
of content nor guaranteed to change when the content changes. -/
theorem putObject_etag_depends_on_clock_not_content :
    ((putObject emptyFS "b" "k" (.ok [1, 2, 3]) [] "ct" 10).2.map (·.etag) ≠
      (putObject emptyFS "b" "k" (.ok [1, 2, 3]) [] "ct" 11).2.map (·.etag)) ∧
    ((putObject emptyFS "b" "k" (.ok [1, 2, 3]) [] "ct" 10).2.map (·.etag) =
      (putObject emptyFS "b" "k" (.ok [4, 5, 6]) [] "ct" 10).2.map (·.etag)) := by
  decide

/-- C3 (code bug): `PutObject` opens the destination with `os.Create`,
which truncates the old object in place; when the input stream errors
after one byte the put fails, yet a reader now sees that single byte
paired with the previous object's stale metadata — the old three-byte
object is gone and a half-written state is visible. -/
theorem putObject_failed_write_leaves_torn_state :
    ((putObject (putObject emptyFS "b" "k" (.ok [1, 2, 3]) [("a", "1")] "ct" 5).1
        "b" "k" (.err [9]) [("a", "2")] "ct2" 6).2 = none) ∧
    ((putObject (putObject emptyFS "b" "k" (.ok [1, 2, 3]) [("a", "1")] "ct" 5).1
        "b" "k" (.err [9]) [("a", "2")] "ct2" 6).1.objects "b" "k" = some [9]) ∧
    (getObject (putObject (putObject emptyFS "b" "k" (.ok [1, 2, 3]) [("a", "1")] "ct" 5).1
        "b" "k" (.err [9]) [("a", "2")] "ct2" 6).1 "b" "k" =
      .ok ([9], ⟨"k", 3, 5, putETag 3 5, "ct", [("a", "1")]⟩)) := by
  decide

/-- C1 (code bug): `CompleteMultipartUpload` never reads the
caller-supplied `ETag` fields.  With part 1 stored (bytes `[65, 66]`,
stored tag `md5Hex [65, 66]`), completing with the mismatched tag
`"wrong"` succeeds and publishes the object instead of failing with
`InvalidPart`. -/
theorem completeMultipartUpload_accepts_mismatched_tag :
    ((uploadPart (createMultipartUpload emptyFS "b" "k" "ct" [] "u1" 0).1
        "b" "k" "u1" 1 [65, 66]).2 = .ok ⟨1, md5Hex [65, 66], 2⟩) ∧
    ("wrong" ≠ md5Hex [65, 66]) ∧
    ((completeMultipartUpload
        (uploadPart (createMultipartUpload emptyFS "b" "k" "ct" [] "u1" 0).1
          "b" "k" "u1" 1 [65, 66]).1
        "b" "k" "u1" [⟨1, "wrong", 2⟩] "r" 9).2 =
      .ok ⟨"k", 2, 9, "\"r-1\"", "ct", []⟩) ∧
    ((completeMultipartUpload
        (uploadPart (createMultipartUpload emptyFS "b" "k" "ct" [] "u1" 0).1
          "b" "k" "u1" 1 [65, 66]).1
        "b" "k" "u1" [⟨1, "wrong", 2⟩] "r" 9).1.objects "b" "k" = some [65, 66]) := by
  decide

/-- C5 (code bug): the resume loop of `ListObjects`/`ListObjectsV2` leaves
`startIdx` at 0 when no stored key is greater than the cursor.  With one
stored key `"a"` and cursor `"b"` (lexicographically past every key), both
listings return the full first page again instead of an empty page. -/
theorem listObjects_cursor_past_end_restarts :
    (("a" : String) < "b") ∧
    ((listObjects (putObject emptyFS "b" "a" (.ok [1]) [] "ct" 3).1
        "b" "" "b" 5).objects = [⟨"a", 1, 3, putETag 1 3, "ct", []⟩]) ∧
    ((listObjects (putObject emptyFS "b" "a" (.ok [1]) [] "ct" 3).1
        "b" "" "b" 5).isTruncated = false) ∧
    ((listObjectsV2 (putObject emptyFS "b" "a" (.ok [1]) [] "ct" 3).1
        "b" "" "b" 5).objects = [⟨"a", 1, 3, putETag 1 3, "ct", []⟩]) := by
  refine ⟨?_, by decide, by decide, by decide⟩
  rw [String.lt_iff_toList_lt]; decide

lemma clampEnd_self (n : Int) : clampEnd n (n - 1) = n - 1 := by
  rw [clampEnd, ite_self]

lemma clampStart_nonneg (s : Int) : 0 ≤ clampStart s := by
  rw [clampStart]; split <;> omega

/-- C6: range reads.  For a stored object `content` with a readable
metadata record: (1) any in-bounds `0 ≤ s ≤ e < size` is served exactly as
the bytes at positions `s … e` inclusive together with the unclamped
bounds; (2) `e = -1` or `e ≥ size` behaves as "to end of object";
(3) a negative `s` behaves as `s = 0`; (4) a range that is inverted after
clamping fails with `InvalidRange`; (5) every range request on an empty
object fails with `InvalidRange`. -/
theorem getObjectRange_correct
    (fs : FileSystemStorage) (bucket key : String) (content : List Nat)
    (meta : ObjectMetadata)
    (hobj : fs.objects bucket key = some content)
    (hmeta : metaLookup fs.metas bucket key = some meta) :
    (∀ s e : Int, 0 ≤ s → s ≤ e → e < (content.length : Int) →
      ∃ bytes : List Nat,
        getObjectRange fs bucket key s e = .ok (bytes, meta, s, e) ∧
        bytes.length = (e - s + 1).toNat ∧
        ∀ i : Nat, i < bytes.length → bytes[i]? = content[s.toNat + i]?) ∧
    (∀ s e : Int, e < 0 ∨ (content.length : Int) ≤ e →
      getObjectRange fs bucket key s e =
        getObjectRange fs bucket key s ((content.length : Int) - 1)) ∧
    (∀ s e : Int, s < 0 →
      getObjectRange fs bucket key s e = getObjectRange fs bucket key 0 e) ∧
    (∀ s e : Int, clampEnd (content.length : Int) e < clampStart s →
      getObjectRange fs bucket key s e = .error .invalidRange) ∧
    (content = [] → ∀ s e : Int,
      getObjectRange fs bucket key s e = .error .invalidRange) := by
  refine ⟨?_, ?_, ?_, ?_, ?_⟩
  · intro s e hs hse he
    have hce : clampEnd (content.length : Int) e = e := by
      rw [clampEnd, if_neg]; omega
    have hcs : clampStart s = s := by
      rw [clampStart, if_neg]; omega
    refine ⟨(content.drop s.toNat).take (e - s + 1).toNat, ?_, ?_, ?_⟩
    · simp only [getObjectRange, hobj, hce, hcs, hmeta]
      rw [if_neg (by omega)]
    · simp only [List.length_take, List.length_drop]
      omega
    · intro i hi
      simp only [List.length_take, List.length_drop] at hi
      rw [List.getElem?_take, if_pos (by omega), List.getElem?_drop]
  · intro s e h
    have hce : clampEnd (content.length : Int) e = (content.length : Int) - 1 := by
      rw [clampEnd, if_pos]; omega
    simp only [getObjectRange, hobj, hce, clampEnd_self]
  · intro s e hs
    have h0 : clampStart s = 0 := by rw [clampStart, if_pos hs]
    have h0' : clampStart 0 = 0 := by rw [clampStart, if_neg]; omega
    simp only [getObjectRange, hobj, h0, h0']
  · intro s e h
    simp only [getObjectRange, hobj]
    rw [if_pos h]
  · intro hc s e
    subst hc
    have hce : clampEnd ((List.length ([] : List Nat) : Nat) : Int) e = -1 := by
      rw [clampEnd, if_pos (by simp; omega)]; simp
    simp only [getObjectRange, hobj]
    rw [show ((List.length ([] : List Nat) : Nat) : Int) = 0 by simp] at hce
    simp only [List.length_nil, Nat.cast_zero, hce]
    rw [if_pos (by have := clampStart_nonneg s; omega)]

/-- Witness for C6 at a concrete store: object `[10, 20, 30]` under
bucket `"b"`, key `"k"`. -/
theorem getObjectRange_correct_witness :
    ((putObject emptyFS "b" "k" (.ok [10, 20, 30]) [] "ct" 4).1.objects "b" "k" =
        some [10, 20, 30] ∧
      metaLookup (putObject emptyFS "b" "k" (.ok [10, 20, 30]) [] "ct" 4).1.metas
        "b" "k" = some ⟨"k", 3, 4, putETag 3 4, "ct", []⟩) ∧
    ((∀ s e : Int, 0 ≤ s → s ≤ e → e < (([10, 20, 30] : List Nat).length : Int) →
      ∃ bytes : List Nat,
        getObjectRange (putObject emptyFS "b" "k" (.ok [10, 20, 30]) [] "ct" 4).1
            "b" "k" s e =
          .ok (bytes, ⟨"k", 3, 4, putETag 3 4, "ct", []⟩, s, e) ∧
        bytes.length = (e - s + 1).toNat ∧
        ∀ i : Nat, i < bytes.length → bytes[i]? = ([10, 20, 30] : List Nat)[s.toNat + i]?) ∧
    (∀ s e : Int, e < 0 ∨ (([10, 20, 30] : List Nat).length : Int) ≤ e →
      getObjectRange (putObject emptyFS "b" "k" (.ok [10, 20, 30]) [] "ct" 4).1
          "b" "k" s e =
        getObjectRange (putObject emptyFS "b" "k" (.ok [10, 20, 30]) [] "ct" 4).1
          "b" "k" s ((([10, 20, 30] : List Nat).length : Int) - 1)) ∧
    (∀ s e : Int, s < 0 →
      getObjectRange (putObject emptyFS "b" "k" (.ok [10, 20, 30]) [] "ct" 4).1
          "b" "k" s e =
        getObjectRange (putObject emptyFS "b" "k" (.ok [10, 20, 30]) [] "ct" 4).1
          "b" "k" 0 e) ∧
    (∀ s e : Int, clampEnd (([10, 20, 30] : List Nat).length : Int) e < clampStart s →
      getObjectRange (putObject emptyFS "b" "k" (.ok [10, 20, 30]) [] "ct" 4).1
          "b" "k" s e = .error .invalidRange) ∧
    (([10, 20, 30] : List Nat) = [] → ∀ s e : Int,
      getObjectRange (putObject emptyFS "b" "k" (.ok [10, 20, 30]) [] "ct" 4).1
          "b" "k" s e = .error .invalidRange)) :=
  ⟨⟨by decide, by decide⟩,
    getObjectRange_correct _ "b" "k" [10, 20, 30] _ (by decide) (by decide)⟩

/-- C10: on a stored non-empty object, `GetObjectRange` treats every
negative end bound — not only `-1` — exactly as a read to the end of the
object (`end = size - 1`). -/
theorem getObjectRange_any_negative_end_means_to_end
    (fs : FileSystemStorage) (bucket key : String) (content : List Nat)
    (hobj : fs.objects bucket key = some content) (hne : content ≠ [])
    (s e : Int) (he : e < 0) :
    getObjectRange fs bucket key s e =
      getObjectRange fs bucket key s ((content.length : Int) - 1) := by
  have hce : clampEnd (content.length : Int) e = (content.length : Int) - 1 := by
    rw [clampEnd, if_pos (Or.inl he)]
  simp only [getObjectRange, hobj, hce, clampEnd_self]

/-- Witness for C10: `e = -5` on the three-byte object behaves as
`e = 2`. -/
theorem getObjectRange_any_negative_end_means_to_end_witness :
    ((putObject emptyFS "b" "k" (.ok [10, 20, 30]) [] "ct" 4).1.objects "b" "k" =
        some [10, 20, 30] ∧ ([10, 20, 30] : List Nat) ≠ [] ∧ (-5 : Int) < 0) ∧
    getObjectRange (putObject emptyFS "b" "k" (.ok [10, 20, 30]) [] "ct" 4).1
        "b" "k" 1 (-5) =
      getObjectRange (putObject emptyFS "b" "k" (.ok [10, 20, 30]) [] "ct" 4).1
        "b" "k" 1 ((([10, 20, 30] : List Nat).length : Int) - 1) :=
  ⟨⟨by decide, by decide, by decide⟩,
    getObjectRange_any_negative_end_means_to_end _ "b" "k" [10, 20, 30]
      (by decide) (by decide) 1 (-5) (by decide)⟩

/-- C4 (counterexample): a session initiated at key `"k1"` can be fed a
part and completed under different keys — `CompleteMultipartUpload` with
key `"k2"` succeeds and publishes the final object at `("b", "k2")`,
leaving nothing at the creation key `("b", "k1")`, because
`multipartPath` addresses the session by (bucket, uploadID) alone and the
publish path uses the key passed to the complete call. -/
theorem completeMultipartUpload_publishes_at_complete_key :
    ((uploadPart (createMultipartUpload emptyFS "b" "k1" "ct" [("a", "1")] "u1" 0).1
        "b" "kX" "u1" 1 [7]).2 = .ok ⟨1, md5Hex [7], 1⟩) ∧
    ((completeMultipartUpload
        (uploadPart (createMultipartUpload emptyFS "b" "k1" "ct" [("a", "1")] "u1" 0).1
          "b" "kX" "u1" 1 [7]).1
        "b" "k2" "u1" [⟨1, md5Hex [7], 1⟩] "r" 5).2 =
      .ok ⟨"k2", 1, 5, "\"r-1\"", "ct", [("a", "1")]⟩) ∧
    ((completeMultipartUpload
        (uploadPart (createMultipartUpload emptyFS "b" "k1" "ct" [("a", "1")] "u1" 0).1
          "b" "kX" "u1" 1 [7]).1
        "b" "k2" "u1" [⟨1, md5Hex [7], 1⟩] "r" 5).1.objects "b" "k2" = some [7]) ∧
    ((completeMultipartUpload
        (uploadPart (createMultipartUpload emptyFS "b" "k1" "ct" [("a", "1")] "u1" 0).1
          "b" "kX" "u1" 1 [7]).1
        "b" "k2" "u1" [⟨1, md5Hex [7], 1⟩] "r" 5).1.objects "b" "k1" = none) := by
  decide

/-- C4 (amended): a session's content type and custom metadata are fixed
at `CreateMultipartUpload` and applied by `CompleteMultipartUpload`, but
the session is addressed by (bucket, uploadID) alone: `uploadPart`,
`listParts` and `abortMultipartUpload` reach it under any key, and
completion publishes the final object at the bucket and key passed to the
complete call itself. -/
theorem multipart_session_addressed_by_uploadID
    (fs : FileSystemStorage) (bucket k1 ct : String) (md : List (String × String))
    (uid : String) (now : Nat) (k2 k3 k4 k5 : String) (pn : Int)
    (data : List Nat) (rid : String) (now2 : Nat) :
    ((uploadPart (createMultipartUpload fs bucket k1 ct md uid now).1
        bucket k2 uid pn data).2 = .ok ⟨pn, md5Hex data, data.length⟩) ∧
    (∃ ps, listParts (createMultipartUpload fs bucket k1 ct md uid now).1
        bucket k3 uid = .ok ps) ∧
    ((abortMultipartUpload (createMultipartUpload fs bucket k1 ct md uid now).1
        bucket k4 uid).uploads bucket uid = none) ∧
    (∃ m : ObjectMetadata,
      (completeMultipartUpload
          (uploadPart (createMultipartUpload fs bucket k1 ct md uid now).1
            bucket k2 uid pn data).1
          bucket k5 uid [⟨pn, md5Hex data, data.length⟩] rid now2).2 = .ok m ∧
      m.key = k5 ∧ m.contentType = ct ∧ m.metadata = md ∧ m.size = data.length ∧
      (completeMultipartUpload
          (uploadPart (createMultipartUpload fs bucket k1 ct md uid now).1
            bucket k2 uid pn data).1
          bucket k5 uid [⟨pn, md5Hex data, data.length⟩] rid now2).1.objects
        bucket k5 = some data) := by
  refine ⟨?_, ?_, ?_, ?_⟩
  · simp [uploadPart, createMultipartUpload]
  · simp [listParts, createMultipartUpload]
  · simp [abortMultipartUpload]
  · refine ⟨⟨k5, data.length, now2, "\"" ++ rid ++ "-" ++ toString (1 : Nat) ++ "\"",
        ct, md⟩, ?_, rfl, rfl, rfl, rfl, ?_⟩ <;>
      simp [completeMultipartUpload, uploadPart, createMultipartUpload, sortParts,
        concatParts, updObj, List.insertionSort, List.orderedInsert]

lemma concatParts_all_present (pd : String → String → Int → Option (List Nat))
    (bucket uploadID : String) (ps : List Part) (bs : Part → List Nat)
    (h : ∀ p ∈ ps, pd bucket uploadID p.partNumber = some (bs p)) :
    concatParts pd bucket uploadID ps =
      ((ps.map bs).flatten, (ps.map fun p => ((bs p).length : Int)).sum, none) := by
  induction ps with
  | nil => simp [concatParts]
  | cons p rest ih =>
      have hp := h p (List.mem_cons_self p rest)
      simp [concatParts, hp, ih (fun q hq => h q (List.mem_cons_of_mem p hq))]

/-- C7: when every referenced part is stored, `CompleteMultipartUpload`
succeeds, the published object is the concatenation of the stored part
bytes taken in ascending part-number order (the caller's submission order
is discarded by the re-sort), and the object's recorded size is the sum of
the referenced parts' sizes. -/
theorem completeMultipartUpload_ordering
    (fs : FileSystemStorage) (bucket key uploadID : String) (parts : List Part)
    (bs : Part → List Nat) (upload : MultipartUpload) (rid : String) (now : Nat)
    (hup : fs.uploads bucket uploadID = some upload)
    (hbs : ∀ p ∈ parts, fs.partData bucket uploadID p.partNumber = some (bs p)) :
    ∃ m : ObjectMetadata,
      (completeMultipartUpload fs bucket key uploadID parts rid now).2 = .ok m ∧
      (completeMultipartUpload fs bucket key uploadID parts rid now).1.objects
        bucket key = some (((sortParts parts).map bs).flatten) ∧
      m.size = (parts.map fun p => ((bs p).length : Int)).sum ∧
      List.Sorted (· ≤ ·) ((sortParts parts).map (·.partNumber)) ∧
      (sortParts parts).Perm parts := by
  have hperm := List.perm_insertionSort
    (fun a b : Part => a.partNumber ≤ b.partNumber) parts
  have hbs' : ∀ p ∈ sortParts parts,
      fs.partData bucket uploadID p.partNumber = some (bs p) :=
    fun p hp => hbs p (hperm.subset hp)
  have hcc := concatParts_all_present fs.partData bucket uploadID (sortParts parts) bs hbs'
  refine ⟨⟨key, ((sortParts parts).map fun p => ((bs p).length : Int)).sum, now,
      "\"" ++ rid ++ "-" ++ toString parts.length ++ "\"", upload.contentType,
      upload.metadata⟩, ?_, ?_, ?_, ?_, hperm⟩
  · simp only [completeMultipartUpload, hup, hcc]
  · simp only [completeMultipartUpload, hup, hcc, updObj]
    simp
  · exact ((hperm.map fun p => ((bs p).length : Int)).sum_eq)
  · exact List.pairwise_map.mpr
      (List.sorted_insertionSort (fun a b : Part => a.partNumber ≤ b.partNumber) parts)

/-- Witness for C7: the concrete parts-{3,1,2} session `fsMulti`; the
published bytes are `pay1 ++ pay2 ++ pay3` and the size is 15. -/
theorem completeMultipartUpload_ordering_witness :
    (fsMulti.uploads "b" "u" = some ⟨"u", "b", "k", 0, "ct", []⟩ ∧
      ∀ p ∈ partsC7, fsMulti.partData "b" "u" p.partNumber = some (bsC7 p)) ∧
    (∃ m : ObjectMetadata,
      (completeMultipartUpload fsMulti "b" "k" "u" partsC7 "r" 9).2 = .ok m ∧
      (completeMultipartUpload fsMulti "b" "k" "u" partsC7 "r" 9).1.objects
        "b" "k" = some (((sortParts partsC7).map bsC7).flatten) ∧
      m.size = (partsC7.map fun p => ((bsC7 p).length : Int)).sum ∧
      List.Sorted (· ≤ ·) ((sortParts partsC7).map (·.partNumber)) ∧
      (sortParts partsC7).Perm partsC7) ∧
    ((sortParts partsC7).map bsC7).flatten = pay1 ++ pay2 ++ pay3 ∧
    (partsC7.map fun p => ((bsC7 p).length : Int)).sum = 15 :=
  ⟨⟨by decide, by decide⟩,
    completeMultipartUpload_ordering fsMulti "b" "k" "u" partsC7 bsC7
      ⟨"u", "b", "k", 0, "ct", []⟩ "r" 9 (by decide) (by decide),
    by decide, by decide⟩

lemma firstGreaterIdx_append (c : String) (pre suf : List ObjectMetadata)
    (h : ∀ a ∈ pre, ¬ c < a.key) :
    firstGreaterIdx c (pre ++ suf) = (firstGreaterIdx c suf).map (· + pre.length) := by
  induction pre with
  | nil => cases h' : firstGreaterIdx c suf <;> simp [h']
  | cons a rest ih =>
      have ha : ¬ c < a.key := h a (List.mem_cons_self a rest)
      have ih' := ih (fun q hq => h q (List.mem_cons_of_mem a hq))
      rw [List.cons_append, firstGreaterIdx, if_neg ha, ih']
      cases h' : firstGreaterIdx c suf
      · simp
      · simp [h']
        omega

lemma resumeIdx_append (pre suf : List ObjectMetadata) (mid : ObjectMetadata)
    (hmid : mid.key ≠ "")
    (hpre : ∀ a ∈ pre, a.key < mid.key)
    (hsuf : ∀ b ∈ suf, mid.key < b.key) :
    resumeIdx (pre ++ mid :: suf) mid.key =
      if suf = [] then 0 else pre.length + 1 := by
  have hpre' : ∀ a ∈ pre ++ [mid], ¬ mid.key < a.key := by
    intro a ha
    rcases List.mem_append.mp ha with h | h
    · exact lt_asymm (hpre a h)
    · simp only [List.mem_singleton] at h; subst h; exact lt_irrefl _
  have hfg := firstGreaterIdx_append mid.key (pre ++ [mid]) suf hpre'
  rw [resumeIdx, if_neg hmid,
    show pre ++ mid :: suf = (pre ++ [mid]) ++ suf by simp, hfg]
  cases suf with
  | nil => simp [firstGreaterIdx]
  | cons b bs =>
      have hb : firstGreaterIdx mid.key (b :: bs) = some 0 := by
        rw [firstGreaterIdx, if_pos (hsuf b (List.mem_cons_self b bs))]
      simp [hb]

lemma listAllObjects_sorted (fs : FileSystemStorage) (bucket pfx : String) :
    (listAllObjects fs bucket pfx).Pairwise (fun a b => a.key ≤ b.key) := by
  unfold listAllObjects sortByKey
  exact List.sorted_insertionSort _ _

lemma pairwise_key_lt_of_nodup (l : List ObjectMetadata)
    (hle : l.Pairwise (fun a b => a.key ≤ b.key))
    (hnd : (l.map (·.key)).Nodup) :
    l.Pairwise (fun a b => a.key < b.key) := by
  have hne : l.Pairwise (fun a b => a.key ≠ b.key) := List.pairwise_map.mp hnd
  exact (hle.and hne).imp fun h => lt_of_le_of_ne h.1 h.2

lemma listObjects_final_page
    (fs : FileSystemStorage) (bucket pfx cursor : String) (maxKeys : Int) (s : Nat)
    (hmk : 1 ≤ maxKeys)
    (hres : resumeIdx (listAllObjects fs bucket pfx) cursor = s)
    (hfits : ¬ ((s : Int) + maxKeys < ((listAllObjects fs bucket pfx).length : Int))) :
    listObjects fs bucket pfx cursor maxKeys =
      ⟨(listAllObjects fs bucket pfx).drop s, false, "", ""⟩ := by
  set l := listAllObjects fs bucket pfx with hl
  simp only [listObjects, paginateList]
  rw [if_neg (by omega : ¬ maxKeys ≤ 0), hres]
  have hdec : decide ((s : Int) + maxKeys < (l.length : Int)) = false :=
    decide_eq_false hfits
  have htake : (l.drop s).take
      (((if (l.length : Int) < (s : Int) + maxKeys then (l.length : Int)
        else (s : Int) + maxKeys) - (s : Int)).toNat) = l.drop s := by
    apply List.take_of_length_le
    rw [List.length_drop]
    split <;> omega
  rw [hdec, htake]
  simp

lemma listObjects_trunc_page
    (fs : FileSystemStorage) (bucket pfx cursor : String) (maxKeys : Int) (s : Nat)
    (hmk : 1 ≤ maxKeys)
    (hres : resumeIdx (listAllObjects fs bucket pfx) cursor = s)
    (htr : (s : Int) + maxKeys < ((listAllObjects fs bucket pfx).length : Int)) :
    listObjects fs bucket pfx cursor maxKeys =
      ⟨((listAllObjects fs bucket pfx).drop s).take maxKeys.toNat, true,
        (((((listAllObjects fs bucket pfx).drop s).take maxKeys.toNat).getLast?.map
          (·.key)).getD ""), ""⟩ := by
  set l := listAllObjects fs bucket pfx with hl
  simp only [listObjects, paginateList]
  rw [if_neg (by omega : ¬ maxKeys ≤ 0), hres]
  have hdec : decide ((s : Int) + maxKeys < (l.length : Int)) = true :=
    decide_eq_true htr
  have hend : (if (l.length : Int) < (s : Int) + maxKeys then (l.length : Int)
      else (s : Int) + maxKeys) = (s : Int) + maxKeys := if_neg (by omega)
  rw [hdec, hend, show ((s : Int) + maxKeys - (s : Int)).toNat = maxKeys.toNat by omega]
  by_cases hp : (l.drop s).take maxKeys.toNat = []
  · simp [hp]
  · simp [hp]

lemma listObjectsPages_eq_drop
    (fs : FileSystemStorage) (bucket pfx : String) (maxKeys : Int)
    (hmk : 1 ≤ maxKeys)
    (hs : (listAllObjects fs bucket pfx).Pairwise (fun a b => a.key < b.key))
    (hne : ∀ a ∈ listAllObjects fs bucket pfx, a.key ≠ "") :
    ∀ (fuel s : Nat) (marker : String),
      resumeIdx (listAllObjects fs bucket pfx) marker = s →
      s ≤ (listAllObjects fs bucket pfx).length →
      (listAllObjects fs bucket pfx).length - s < fuel →
      listObjectsPages fs bucket pfx maxKeys marker fuel =
        (listAllObjects fs bucket pfx).drop s := by
  intro fuel
  induction fuel with
  | zero => intro s marker _ _ h; omega
  | succ f ih =>
      intro s marker hres hsle hfuel
      by_cases htr : (s : Int) + maxKeys < ((listAllObjects fs bucket pfx).length : Int)
      -- truncated page: take maxKeys records, recurse from the page's last key
      · set l := listAllObjects fs bucket pfx with hl
        set e : Nat := s + maxKeys.toNat with he
        have he1 : e - 1 < l.length := by omega
        set mid : ObjectMetadata := l.get ⟨e - 1, he1⟩ with hmid
        have htke : l.take e = l.take (e - 1) ++ [mid] := by
          rw [show e = (e - 1) + 1 by omega, List.take_succ,
            List.getElem?_eq_getElem (by omega : e - 1 < l.length)]
          simp [hmid]
        have hdec : l = l.take (e - 1) ++ mid :: l.drop e := by
          conv_lhs => rw [← List.take_append_drop e l]
          rw [htke, List.append_assoc, List.singleton_append]
        have hpage : (l.drop s).take maxKeys.toNat ≠ [] := by
          refine List.ne_nil_of_length_pos ?_
          rw [List.length_take, List.length_drop]
          omega
        have hlast : ((l.drop s).take maxKeys.toNat).getLast? = some mid := by
          have h1 : l.take e = l.take s ++ (l.drop s).take maxKeys.toNat := by
            rw [he, List.take_add]
          have h2 := List.getLast?_concat (a := mid) (l := l.take (e - 1))
          rw [← htke, h1, List.getLast?_append] at h2
          cases hq : ((l.drop s).take maxKeys.toNat).getLast? with
          | none => exact absurd (List.getLast?_eq_none_iff.mp hq) hpage
          | some x => rw [hq] at h2; simpa using h2
        have hpw := hs
        rw [hdec, List.pairwise_append, List.pairwise_cons] at hpw
        have hpre : ∀ a ∈ l.take (e - 1), a.key < mid.key :=
          fun a ha => hpw.2.2 a ha mid (List.mem_cons_self _ _)
        have hsuf : ∀ b ∈ l.drop e, mid.key < b.key := fun b hb => hpw.2.1.1 b hb
        have hmidne : mid.key ≠ "" := by
          refine hne mid ?_
          rw [hdec]
          exact List.mem_append_right _ (List.mem_cons_self _ _)
        have hresmid : resumeIdx l mid.key = e := by
          have hdne : l.drop e ≠ [] := by
            intro hcon
            have := congrArg List.length hcon
            rw [List.length_drop] at this
            simp at this
            omega
          calc resumeIdx l mid.key
              = resumeIdx (l.take (e - 1) ++ mid :: l.drop e) mid.key := by rw [← hdec]
            _ = if l.drop e = [] then 0 else (l.take (e - 1)).length + 1 :=
                resumeIdx_append _ _ _ hmidne hpre hsuf
            _ = e := by
                rw [if_neg hdne, List.length_take]
                omega
        have hrec := ih e mid.key hresmid (by omega) (by omega)
        simp only [listObjectsPages]
        rw [listObjects_trunc_page fs bucket pfx marker maxKeys s hmk hres htr, ← hl]
        dsimp only
        rw [if_pos rfl, hlast]
        dsimp only [Option.map_some', Option.getD_some]
        rw [hrec]
        have hdd : (l.drop s).drop maxKeys.toNat = l.drop e := by
          rw [List.drop_drop]
        rw [← hdd, List.take_append_drop]
      · simp only [listObjectsPages]
        rw [listObjects_final_page fs bucket pfx marker maxKeys s hmk hres htr]
        dsimp only
        rw [if_neg (by simp)]

/-- C8: starting from the empty cursor and feeding the returned cursor
back until `isTruncated` is false, `ListObjects` yields exactly the
prefix-filtered store content — every matching key exactly once, in
ascending lexicographic key order with no duplicates; every page holds at
most `maxKeys` records; `isTruncated` is true exactly when
`resumeIdx + maxKeys` is below the filtered count; and `ListObjectsV2`
computes the very same pages, cursor for cursor.  (Keys are pairwise
distinct and non-empty on a real metadata directory, where each key is one
file name.) -/
theorem listObjects_pagination_complete
    (fs : FileSystemStorage) (bucket pfx : String) (maxKeys : Int)
    (hmk : 1 ≤ maxKeys)
    (hnd : ((listAllObjects fs bucket pfx).map (·.key)).Nodup)
    (hne : ∀ a ∈ listAllObjects fs bucket pfx, a.key ≠ "") :
    (∀ fuel, (listAllObjects fs bucket pfx).length < fuel →
      listObjectsPages fs bucket pfx maxKeys "" fuel = listAllObjects fs bucket pfx) ∧
    List.Sorted (· < ·) ((listAllObjects fs bucket pfx).map (·.key)) ∧
    (∀ cursor, ((listObjects fs bucket pfx cursor maxKeys).objects).length ≤
      maxKeys.toNat) ∧
    (∀ cursor, (listObjects fs bucket pfx cursor maxKeys).isTruncated = true ↔
      ((resumeIdx (listAllObjects fs bucket pfx) cursor : Int) + maxKeys <
        ((listAllObjects fs bucket pfx).length : Int))) ∧
    (∀ cursor, listObjectsV2 fs bucket pfx cursor maxKeys =
      ⟨(listObjects fs bucket pfx cursor maxKeys).objects,
       (listObjects fs bucket pfx cursor maxKeys).isTruncated, "",
       (listObjects fs bucket pfx cursor maxKeys).nextMarker⟩) := by
  have hstrict : (listAllObjects fs bucket pfx).Pairwise (fun a b => a.key < b.key) :=
    pairwise_key_lt_of_nodup _ (listAllObjects_sorted fs bucket pfx) hnd
  refine ⟨?_, ?_, ?_, ?_, fun _ => rfl⟩
  · intro fuel hfuel
    have h0 : resumeIdx (listAllObjects fs bucket pfx) "" = 0 := by
      rw [resumeIdx, if_pos rfl]
    simpa using
      listObjectsPages_eq_drop fs bucket pfx maxKeys hmk hstrict hne fuel 0 "" h0
        (Nat.zero_le _) (by omega)
  · exact List.pairwise_map.mpr hstrict
  · intro cursor
    simp only [listObjects, paginateList]
    rw [if_neg (by omega : ¬ maxKeys ≤ 0)]
    refine le_trans (List.length_take_le _ _) ?_
    split <;> omega
  · intro cursor
    simp only [listObjects, paginateList]
    rw [if_neg (by omega : ¬ maxKeys ≤ 0)]
    simp

/-- Witness for C8 on the three-object store `fsList`, page size 2. -/
theorem listObjects_pagination_complete_witness :
    ((1 : Int) ≤ 2 ∧
      ((listAllObjects fsList "b" "").map (·.key)).Nodup ∧
      ∀ a ∈ listAllObjects fsList "b" "", a.key ≠ "") ∧
    ((∀ fuel, (listAllObjects fsList "b" "").length < fuel →
      listObjectsPages fsList "b" "" 2 "" fuel = listAllObjects fsList "b" "") ∧
    List.Sorted (· < ·) ((listAllObjects fsList "b" "").map (·.key)) ∧
    (∀ cursor, ((listObjects fsList "b" "" cursor 2).objects).length ≤ (2 : Int).toNat) ∧
    (∀ cursor, (listObjects fsList "b" "" cursor 2).isTruncated = true ↔
      ((resumeIdx (listAllObjects fsList "b" "") cursor : Int) + 2 <
        ((listAllObjects fsList "b" "").length : Int))) ∧
    (∀ cursor, listObjectsV2 fsList "b" "" cursor 2 =
      ⟨(listObjects fsList "b" "" cursor 2).objects,
       (listObjects fsList "b" "" cursor 2).isTruncated, "",
       (listObjects fsList "b" "" cursor 2).nextMarker⟩)) ∧
    listObjectsPages fsList "b" "" 2 "" 4 =
      [⟨"k1", 1, 1, putETag 1 1, "ct", []⟩, ⟨"k2", 2, 2, putETag 2 2, "ct", []⟩,
       ⟨"k3", 1, 3, putETag 1 3, "ct", []⟩] :=
  ⟨⟨by decide, by decide, by decide⟩,
    listObjects_pagination_complete fsList "b" "" 2 (by decide) (by decide) (by decide),
    by decide⟩

end EssThree
